import Mathlib

/-!
Verification of the cvelib IDR client (src/cvelib/idr.py) against its
specification.  The Python code is shallowly embedded: decoded JSON values
become the inductive type JVal, Python dicts become ordered association
lists, the network is an oracle passed in as a function or event, and the
generator get_paged becomes both a fuel-bounded run-to-completion function
and a single-step machine (for the laziness claim).
-/

/-- Decoded JSON value, as produced by response.json() in the Python code. -/
inductive JVal where
  | null
  | bool (b : Bool)
  | str (s : String)
  | num (n : Int)
  | arr (xs : List JVal)
  | obj (fields : List (String × JVal))

/-- A decoded JSON object / Python dict: an insertion-ordered association
list with distinct keys (Python dicts preserve insertion order). -/
abbrev JObj := List (String × JVal)

/-- Python dict assignment d[k] = v: overwrite in place when the key is
present (keeping its position), otherwise append at the end. -/
def dictSet (d : JObj) (k : String) (v : JVal) : JObj :=
  match d with
  | [] => [(k, v)]
  | (k', v') :: rest => if k' = k then (k, v) :: rest else (k', v') :: dictSet rest k v

/-- Python dict.get(k) on a decoded JSON object.  A JSON null decodes to
the Python value None, so a key bound to null is indistinguishable from an
absent key for a get with default None; both give none here. -/
def pyGetOpt (d : JObj) (k : String) : Option JVal :=
  match List.lookup k d with
  | none => none
  | some JVal.null => none
  | some v => some v

/-- A single apostrophe, used by the Python repr of strings. -/
def pyQuote : String := String.singleton (Char.ofNat 39)

mutual
/-- The Python repr of a decoded JSON value (how it prints inside
containers): None, True, False, quoted strings, lists, dicts. -/
def pyRepr : JVal → String
  | .null => "None"
  | .bool true => "True"
  | .bool false => "False"
  | .str s => pyQuote ++ s ++ pyQuote
  | .num n => toString n
  | .arr xs => "[" ++ pyReprList xs ++ "]"
  | .obj fs => "\x7b" ++ pyReprFields fs ++ "\x7d"

/-- Comma-separated reprs of list elements. -/
def pyReprList : List JVal → String
  | [] => ""
  | [x] => pyRepr x
  | x :: y :: rest => pyRepr x ++ ", " ++ pyReprList (y :: rest)

/-- Comma-separated reprs of dict entries. -/
def pyReprFields : List (String × JVal) → String
  | [] => ""
  | [(k, v)] => pyQuote ++ k ++ pyQuote ++ ": " ++ pyRepr v
  | (k, v) :: f :: rest => pyQuote ++ k ++ pyQuote ++ ": " ++ pyRepr v ++ ", " ++ pyReprFields (f :: rest)
end

/-- The Python str of a decoded JSON value, as used when it is formatted
into an f-string: a top-level string prints bare, containers print as repr. -/
def pyStr : JVal → String
  | .str s => s
  | v => pyRepr v

/-- The Python str of a bytes object (response.content) holding the given
ASCII text: the bytes repr b with quotes. -/
def pyBytesRepr (content : String) : String := "b" ++ pyQuote ++ content ++ pyQuote

/-- The fixed environment table Idr.ENVS from the source. -/
def ENVS : List (String × String) :=
  [("prod", "https://cveawg.mitre.org/api/"),
   ("dev", "https://cveawg-dev.mitre.org/api/")]

/-- The constructed client state: the fields Idr.__init__ stores. -/
structure Idr where
  username : String
  org : String
  api_key : String
  url : String
  raise_exc : Bool
deriving DecidableEq

/-- Embedding of Idr.__init__.  The explicit url argument is optional
(Python default None); the expression url or ENVS.get(env) falls back to
the environment table when url is None or empty (Python truthiness), and
construction raises ValueError when the result is still falsy. -/
def idrInit (username org api_key : String) (env : String) (url : Option String)
    (raise_exc : Bool) : Except String Idr :=
  let resolved : Option String :=
    match url with
    | some s => if s = "" then List.lookup env ENVS else some s
    | none => List.lookup env ENVS
  match resolved with
  | some s =>
      if s = "" then Except.error "Missing URL for IDR"
      else Except.ok ⟨username, org, api_key, s, raise_exc⟩
  | none => Except.error "Missing URL for IDR"

/-- An HTTP response as the requests library hands it back: status code,
reason phrase, final URL, raw body, and the outcome of response.json()
(none when the body is not valid JSON, in which case json() raises
ValueError). -/
structure HttpResponse where
  statusCode : Nat
  reason : String
  url : String
  content : String
  jsonBody : Option JVal

/-- The message of the HTTPError that Response.raise_for_status builds for
a status in 400..599 (Client Error for 4xx, Server Error for 5xx). -/
def raiseForStatusMsg (r : HttpResponse) : String :=
  if r.statusCode < 500 then
    toString r.statusCode ++ " Client Error: " ++ r.reason ++ " for url: " ++ r.url
  else
    toString r.statusCode ++ " Server Error: " ++ r.reason ++ " for url: " ++ r.url

/-- What the network does for one call of requests.request: either the
call itself raises (timeout, connection refused, ...) with the given
message, or a response comes back. -/
inductive TransportEvent where
  | failure (msg : String)
  | response (r : HttpResponse)

/-- How a call of Idr.http_request ends: a returned response, a raised
IdrException, or an exception of the transport library propagating
unwrapped out of the method. -/
inductive ReqOutcome where
  | ok (r : HttpResponse)
  | idrError (msg : String)
  | transportRaise (msg : String)

/-- True exactly when the outcome is a raised IdrException. -/
def ReqOutcome.isIdrError : ReqOutcome → Bool
  | .idrError _ => true
  | _ => false

/-- Embedding of Idr.http_request given the network event for its single
requests.request call.  The requests.request line sits outside the
try block, so an exception it raises is not wrapped; only the HTTPError
from raise_for_status (status 400..599, which always carries the response)
is caught and re-raised as IdrException, with the body JSON-decoded when
possible and the raw bytes otherwise.  With raise_exc disabled the
response is returned untouched. -/
def http_request (idr : Idr) (event : TransportEvent) : ReqOutcome :=
  match event with
  | .failure msg => .transportRaise msg
  | .response r =>
      if idr.raise_exc then
        if 400 ≤ r.statusCode ∧ r.statusCode < 600 then
          let error : String :=
            match r.jsonBody with
            | some v => pyStr v
            | none => pyBytesRepr r.content
          .idrError (raiseForStatusMsg r ++ "; returned error: " ++ error)
        else .ok r
      else .ok r

/-- How a full (fuel-bounded) run of the get_paged generator can end:
normal termination with the yielded items and the number of GETs issued, a
KeyError on page[page_data_attr] (earlier items were already yielded), a
TypeError when that field is not an array, or fuel exhaustion (the Python
loop would still be running). -/
inductive PagedResult where
  | ok (items : List JVal) (fetches : Nat)
  | keyError (itemsSoFar : List JVal) (fetches : Nat) (key : String)
  | typeError (itemsSoFar : List JVal) (fetches : Nat)
  | fuelOut (itemsSoFar : List JVal) (fetches : Nat)

/-- The while-True loop of Idr.get_paged, run to completion.  fetch is the
network oracle: the decoded JSON body that the GET with the current params
returns.  acc holds the items yielded so far and n the fetches done so
far; fuel bounds the number of remaining iterations.  Each iteration does
the GET, subscripts the page with page_data_attr (KeyError when absent),
yields the array elements, then reads the nextPage cursor with dict.get:
a present non-null cursor is written into params under the key page and
the loop repeats, otherwise the generator returns. -/
def getPagedAux (fetch : JObj → JObj) (page_data_attr : String) :
    Nat → JObj → List JVal → Nat → PagedResult
  | 0, _, acc, n => .fuelOut acc n
  | fuel + 1, params, acc, n =>
    match List.lookup page_data_attr (fetch params) with
    | none => .keyError acc (n + 1) page_data_attr
    | some (JVal.arr items) =>
      match pyGetOpt (fetch params) "nextPage" with
      | some np => getPagedAux fetch page_data_attr fuel (dictSet params "page" np) (acc ++ items) (n + 1)
      | none => .ok (acc ++ items) (n + 1)
    | some _ => .typeError acc (n + 1)

/-- A complete pagination run of Idr.get_paged from its initial params. -/
def get_paged (fetch : JObj → JObj) (page_data_attr : String) (params : JObj)
    (fuel : Nat) : PagedResult :=
  getPagedAux fetch page_data_attr fuel params [] 0

/-- The array of items a page carries under the named field (empty when
the field is absent or not an array); used to state what a run yields. -/
def pageItems (page_data_attr : String) (page : JObj) : List JVal :=
  match List.lookup page_data_attr page with
  | some (JVal.arr items) => items
  | _ => []

/-- True when a page is a final page: its nextPage cursor is absent or
bound to JSON null (dict.get gives the Python value None either way). -/
def isFinalPage (page : JObj) : Bool :=
  (pyGetOpt page "nextPage").isNone

/-- Modelled from the spec invariant for comparison with the run: the
sequence of pages a pagination run fetches, following the nextPage cursor
of each page into the params until a page with an absent or null cursor. -/
def fetchTrace (fetch : JObj → JObj) : Nat → JObj → List JObj
  | 0, _ => []
  | fuel + 1, params =>
    match pyGetOpt (fetch params) "nextPage" with
    | some np => fetch params :: fetchTrace fetch fuel (dictSet params "page" np)
    | none => [fetch params]

/-- True when a page list consists of cursor-bearing pages followed by one
final page: the shape the spec requires of the pages a run consumes. -/
def traceShape : List JObj → Bool
  | [] => false
  | [page] => isFinalPage page
  | page :: next :: rest => !(isFinalPage page) && traceShape (next :: rest)

/-- The resumable state of the get_paged generator between next() calls:
about to fetch with given params, holding not-yet-yielded items of the
current page, finished, or terminated by an exception. -/
inductive GPhase where
  | toFetch (params : JObj)
  | buffered (buf : List JVal) (page : JObj) (params : JObj)
  | done
  | keyFailed (key : String)
  | typeFailed

/-- The part of a next() call of the generator that runs from the top of
the loop body: fetch a page with the given params and continue until an
item is yielded, the generator finishes, or an exception occurs.  Returns
the yielded item if any, the successor state, and the number of GETs the
call performed (several in a row when pages are empty). -/
def fetchStep (fetch : JObj → JObj) (page_data_attr : String) :
    Nat → JObj → Option JVal × GPhase × Nat
  | 0, params => (none, .toFetch params, 0)
  | fuel + 1, params =>
    match List.lookup page_data_attr (fetch params) with
    | none => (none, .keyFailed page_data_attr, 1)
    | some (JVal.arr (i :: rest)) => (some i, .buffered rest (fetch params) params, 1)
    | some (JVal.arr []) =>
      (match pyGetOpt (fetch params) "nextPage" with
       | some np =>
         let r := fetchStep fetch page_data_attr fuel (dictSet params "page" np)
         (r.1, r.2.1, r.2.2 + 1)
       | none => (none, .done, 1))
    | some _ => (none, .typeFailed, 1)

/-- One next() call on the get_paged generator: while items of the current
page remain buffered, the next one is yielded without touching the
network; only once a page is exhausted is its cursor consulted and, if the
cursor is non-null, the next page fetched. -/
def genNext (fetch : JObj → JObj) (page_data_attr : String) (fuel : Nat) :
    GPhase → Option JVal × GPhase × Nat
  | .toFetch params => fetchStep fetch page_data_attr fuel params
  | .buffered (i :: rest) page params => (some i, .buffered rest page params, 0)
  | .buffered [] page params =>
    (match pyGetOpt page "nextPage" with
     | some np => fetchStep fetch page_data_attr fuel (dictSet params "page" np)
     | none => (none, .done, 0))
  | .done => (none, .done, 0)
  | .keyFailed k => (none, .keyFailed k, 0)
  | .typeFailed => (none, .typeFailed, 0)

/-- True when the generator still holds unconsumed items of the page it
last fetched. -/
def hasPendingItems : GPhase → Bool
  | .buffered (_ :: _) _ _ => true
  | _ => false

/-- Embedding of Idr.reserve: the query parameters it posts.  The dict is
built with cve_year, amount and short_name, and batch_type is added only
when count exceeds one. -/
def reserveParams (count : Int) (random : Bool) (year : Int) (owning_cna : String) : JObj :=
  let params : JObj := [("cve_year", .num year), ("amount", .num count), ("short_name", .str owning_cna)]
  if count > 1 then
    dictSet params "batch_type" (.str (if random then "nonsequential" else "sequential"))
  else params

/-- A Python datetime value (naive, no timezone), as the reservation time
bounds of Idr.list_cves receive. -/
structure PyDatetime where
  year : Nat
  month : Nat
  day : Nat
  hour : Nat
  minute : Nat
  second : Nat
  microsecond : Nat

/-- The str.upper of Python applied to an ASCII state string: upper-case
each character. -/
def pyUpper (s : String) : String := String.mk (s.data.map Char.toUpper)

/-- Zero-padded decimal of the given width, as the %02d style fields of
datetime.isoformat produce. -/
def padNum (width n : Nat) : String :=
  let s := toString n
  if s.length < width then String.mk (List.replicate (width - s.length) (Char.ofNat 48)) ++ s
  else s

/-- The datetime.isoformat() string: date, the separator T, the time, and
a microseconds suffix only when the microsecond field is non-zero. -/
def PyDatetime.isoformat (d : PyDatetime) : String :=
  padNum 4 d.year ++ "-" ++ padNum 2 d.month ++ "-" ++ padNum 2 d.day ++ "T" ++
  padNum 2 d.hour ++ ":" ++ padNum 2 d.minute ++ ":" ++ padNum 2 d.second ++
  (if d.microsecond = 0 then "" else "." ++ padNum 6 d.microsecond)

/-- Embedding of Idr.list_cves: the filter parameters it passes to
get_paged.  Each filter is guarded by Python truthiness: a year of 0, a
state of the empty string, or an absent argument adds nothing; the state
is upper-cased and the datetime bounds are serialized with isoformat. -/
def listCvesParams (year : Option Int) (state : Option String)
    (reserved_lt reserved_gt : Option PyDatetime) : JObj :=
  let params : JObj := []
  let params := match year with
    | some y => if y = 0 then params else dictSet params "cve_id_year" (.num y)
    | none => params
  let params := match state with
    | some s => if s = "" then params else dictSet params "state" (.str (pyUpper s))
    | none => params
  let params := match reserved_lt with
    | some d => dictSet params "time_reserved.lt" (.str d.isoformat)
    | none => params
  match reserved_gt with
    | some d => dictSet params "time_reserved.gt" (.str d.isoformat)
    | none => params

/-- True for characters allowed in a URL scheme (letters, digits, plus,
minus, dot), the scheme_chars table of urllib.parse. -/
def schemeCharOk (c : Char) : Bool :=
  c.isAlpha || c.isDigit || c = '+' || c = '-' || c = '.'

/-- True when a character may appear in the netloc component: anything up
to the first slash, question mark or hash ends the netloc. -/
def netlocChar (c : Char) : Bool :=
  !(c = '/' || c = '?' || c = '#')

/-- The urlsplit removal of unsafe bytes: tab, carriage return and line
feed are deleted from the URL before parsing. -/
def removeUnsafe (l : List Char) : List Char :=
  l.filter (fun c => !(c = Char.ofNat 9 || c = Char.ofNat 13 || c = Char.ofNat 10))

/-- True for the C0 control characters and space that urlsplit strips
from the ends of its arguments. -/
def isC0OrSpace (c : Char) : Bool := c.toNat ≤ 32

/-- The left strip of control characters and space urlsplit applies to
the URL. -/
def lstripC0 (l : List Char) : List Char := l.dropWhile isC0OrSpace

/-- The two-sided strip of control characters and space urlsplit applies
to the default scheme. -/
def stripC0 (l : List Char) : List Char :=
  ((l.dropWhile isC0OrSpace).reverse.dropWhile isC0OrSpace).reverse

/-- Split a character list at its first colon: the part before and the
part after, or none when there is no colon. -/
def splitAtColon : List Char → Option (List Char × List Char)
  | [] => none
  | c :: rest =>
    if c = ':' then some ([], rest)
    else match splitAtColon rest with
      | some (a, b) => some (c :: a, b)
      | none => none

/-- Split a character list at the first occurrence of the given character:
the part before, and the part after with the separator dropped (empty when
the character is absent, mirroring how urlsplit leaves query and fragment
empty). -/
def splitFirst (sep : Char) : List Char → List Char × List Char
  | [] => ([], [])
  | c :: rest =>
    if c = sep then ([], rest)
    else
      let r := splitFirst sep rest
      (c :: r.1, r.2)

/-- True when the candidate scheme prefix is acceptable to urlsplit: it is
non-empty, starts with an ASCII letter, and has only scheme characters. -/
def schemeValid (pre : List Char) : Bool :=
  !pre.isEmpty && (match pre with | [] => false | c :: _ => c.isAlpha) && pre.all schemeCharOk

/-- The scheme step of urlsplit: find the first colon and, when the part
before it is a valid scheme, lower-case it and keep the rest; otherwise
the default scheme applies and the whole input remains. -/
def splitSchemeD (l : List Char) (defScheme : List Char) : List Char × List Char :=
  match splitAtColon l with
  | some (pre, post) =>
      if schemeValid pre then (pre.map Char.toLower, post) else (defScheme, l)
  | none => (defScheme, l)

/-- The netloc step of urlsplit: when the remainder begins with two
slashes, the netloc runs to the first slash, question mark or hash. -/
def splitNetlocD (l : List Char) : List Char × List Char :=
  match l with
  | '/' :: '/' :: rest => (rest.takeWhile netlocChar, rest.dropWhile netlocChar)
  | _ => ([], l)

/-- The five components urlsplit produces. -/
structure SplitResult where
  scheme : String
  netloc : String
  path : String
  query : String
  fragment : String
deriving DecidableEq

/-- Embedding of urllib.parse.urlsplit with a default scheme, as urljoin
uses it.  Leading control characters and spaces are stripped from the URL
(both ends for the default scheme), unsafe bytes are removed, then scheme,
netloc, fragment and query are split off in that order.  Two checks that can only raise (the
IPv6 bracket check and the NFKC netloc check) are omitted: they reject
some inputs but never alter the parse.  The params component (semicolon
part of the last path segment, split off by urlparse) stays folded into
the path here; it is reattached verbatim on unparse, so only dot-segment
resolution of semicolon-bearing paths, never scheme or netloc, could
differ. -/
def urlsplitD (url defScheme : String) : SplitResult :=
  let l := removeUnsafe (lstripC0 url.data)
  let d := removeUnsafe (stripC0 defScheme.data)
  let s := splitSchemeD l d
  let n := splitNetlocD s.2
  let f := splitFirst '#' n.2
  let q := splitFirst '?' f.1
  ⟨String.mk s.1, String.mk n.1, String.mk q.1, String.mk q.2, String.mk f.2⟩

/-- The uses_relative table of urllib.parse. -/
def usesRelative : List String :=
  ["", "ftp", "http", "gopher", "nntp", "imap", "wais", "file", "https",
   "shttp", "mms", "prospero", "rtsp", "rtspu", "sftp", "svn", "svn+ssh",
   "ws", "wss"]

/-- The uses_netloc table of urllib.parse. -/
def usesNetloc : List String :=
  ["", "ftp", "http", "gopher", "nntp", "telnet", "imap", "wais", "file",
   "mms", "https", "shttp", "snews", "prospero", "rtsp", "rtspu", "rsync",
   "svn", "svn+ssh", "sftp", "nfs", "git", "git+ssh", "ws", "wss"]

/-- True when the string begins with a slash (kernel-reducible form of
the startswith check urlunsplit and urljoin perform). -/
def startsSlash (s : String) : Bool :=
  match s.data with
  | c :: _ => c = '/'
  | [] => false

/-- True when the string begins with two slashes. -/
def startsDoubleSlash (s : String) : Bool :=
  match s.data with
  | a :: b :: _ => a = '/' && b = '/'
  | _ => false

/-- Embedding of urllib.parse.urlunsplit: reattach netloc (with a slash
forced before a relative path), scheme, query and fragment. -/
def urlunsplit (r : SplitResult) : String :=
  let u := r.path
  let u :=
    if r.netloc ≠ "" ∨ (r.scheme ≠ "" ∧ usesNetloc.contains r.scheme ∧ startsDoubleSlash u = false) then
      "//" ++ r.netloc ++ (if u ≠ "" ∧ startsSlash u = false then "/" ++ u else u)
    else u
  let u := if r.scheme ≠ "" then r.scheme ++ ":" ++ u else u
  let u := if r.query ≠ "" then u ++ "?" ++ r.query else u
  if r.fragment ≠ "" then u ++ "#" ++ r.fragment else u

/-- Split a path into segments at every slash, like the Python
str.split on a slash (the empty path gives one empty segment). -/
def splitSlash (path : String) : List String :=
  ((path.data.splitOn '/').map String.mk)

/-- Keep the first and last segment, dropping empty segments in between:
the segments slice-assignment filter of urljoin.  The caller applies it to
the tail of the segment list, so the overall first element is kept. -/
def filterMid : List String → List String
  | [] => []
  | [s] => [s]
  | s :: t :: rest => if s = "" then filterMid (t :: rest) else s :: filterMid (t :: rest)

/-- The dot-segment resolution loop of urljoin: two dots pop the last
resolved segment (silently on empty), one dot is skipped, anything else is
appended. -/
def resolveLoop (acc : List String) : List String → List String
  | [] => acc
  | s :: rest =>
    if s = ".." then resolveLoop acc.dropLast rest
    else if s = "." then resolveLoop acc rest
    else resolveLoop (acc ++ [s]) rest

/-- The relative-path merge of urljoin: the base directory segments are
joined with the new segments, dot segments are resolved, a trailing slash
is restored after a final dot segment, and an empty join becomes a single
slash. -/
def mergedPath (bpath upath : String) : String :=
  let baseParts := splitSlash bpath
  let baseParts := if baseParts.getLast? ≠ some "" then baseParts.dropLast else baseParts
  let segments :=
    if startsSlash upath then splitSlash upath
    else match baseParts ++ splitSlash upath with
      | [] => []
      | s :: rest => s :: filterMid rest
  let resolved := resolveLoop [] segments
  let resolved :=
    if segments.getLast? = some "." ∨ segments.getLast? = some ".." then resolved ++ [""]
    else resolved
  let joined := String.intercalate "/" resolved
  if joined = "" then "/" else joined

/-- The tail of urljoin once scheme and netloc are settled: an empty new
path keeps the base path (and base query when the new query is empty),
otherwise the paths are merged. -/
def urljoinPath (scheme netloc : String) (b u : SplitResult) : String :=
  if u.path = "" then
    urlunsplit ⟨scheme, netloc, b.path, if u.query = "" then b.query else u.query, u.fragment⟩
  else
    urlunsplit ⟨scheme, netloc, mergedPath b.path u.path, u.query, u.fragment⟩

/-- The netloc dispatch of urljoin: a URL with its own netloc wins
outright (for schemes that use a netloc); otherwise the base netloc is
adopted and the paths are joined. -/
def urljoinMerge (b u : SplitResult) : String :=
  if usesNetloc.contains u.scheme then
    if u.netloc ≠ "" then urlunsplit u
    else urljoinPath u.scheme b.netloc b u
  else urljoinPath u.scheme u.netloc b u

/-- Embedding of urllib.parse.urljoin: empty arguments short-circuit, the
base is parsed with an empty default scheme, the url with the base scheme
as default; a scheme mismatch (or a scheme outside uses_relative) returns
the url unchanged, otherwise netloc and path are merged. -/
def urljoin (base url : String) : String :=
  if base = "" then url
  else if url = "" then base
  else
    let b := urlsplitD base ""
    let u := urlsplitD url b.scheme
    if u.scheme ≠ b.scheme ∨ ¬ usesRelative.contains u.scheme then url
    else urljoinMerge b u

/-- The host an HTTP client directs a request at, read off the URL string:
the netloc component of its parse. -/
def hostOf (url : String) : String :=
  (urlsplitD url "").netloc

/-- The URL that Idr.http_request builds for a path: urljoin of the
configured base URL and the path argument. -/
def httpRequestUrl (idr : Idr) (path : String) : String :=
  urljoin idr.url path

/-- First demo page: two items and a cursor pointing at page 2. -/
def pageA : JObj := [("cve_ids", .arr [.str "A1", .str "A2"]), ("nextPage", .num 2)]

/-- Second demo page: one item and a cursor pointing at page 3. -/
def pageB : JObj := [("cve_ids", .arr [.str "B1"]), ("nextPage", .num 3)]

/-- Third demo page: two items and an explicit null cursor. -/
def pageC : JObj := [("cve_ids", .arr [.str "C1", .str "C2"]), ("nextPage", .null)]

/-- A three-page demo server keyed on the page query parameter. -/
def demoFetch (params : JObj) : JObj :=
  match List.lookup "page" params with
  | some (.num 2) => pageB
  | some (.num 3) => pageC
  | _ => pageA

/-- A demo server whose second page lacks the cve_ids field. -/
def demoFetchBroken (params : JObj) : JObj :=
  match List.lookup "page" params with
  | some (.num 2) => [("message", .str "oops")]
  | _ => [("cve_ids", .arr [.str "A1"]), ("nextPage", .num 2)]

/-- Looking up the key just written by a dict assignment gives the new
value. -/
theorem lookup_dictSet_self (d : JObj) (k : String) (v : JVal) :
    List.lookup k (dictSet d k v) = some v := by
  induction d with
  | nil => simp [dictSet, List.lookup]
  | cons e rest ih =>
    obtain ⟨k1, v1⟩ := e
    by_cases h : k1 = k
    · simp [dictSet, h, List.lookup]
    · have hb : (k == k1) = false := beq_eq_false_iff_ne.mpr (Ne.symm h)
      simp [dictSet, h, List.lookup, hb, ih]

/-- A dict assignment leaves the binding of every other key unchanged. -/
theorem lookup_dictSet_ne (d : JObj) (k k' : String) (v : JVal) (h : k ≠ k') :
    List.lookup k' (dictSet d k v) = List.lookup k' d := by
  induction d with
  | nil =>
    have hb : (k' == k) = false := beq_eq_false_iff_ne.mpr (Ne.symm h)
    simp [dictSet, List.lookup, hb]
  | cons e rest ih =>
    obtain ⟨k1, v1⟩ := e
    by_cases h1 : k1 = k
    · subst h1
      have hb : (k' == k1) = false := beq_eq_false_iff_ne.mpr (Ne.symm h)
      simp [dictSet, List.lookup, hb]
    · simp [dictSet, h1, List.lookup, ih]

/-- C6: a page whose nextPage cursor is absent is handled exactly like one
whose cursor is present but null: the single hypothesis hfinal covers
precisely those two cases (dict.get returns the Python value None for
both), and under it a run yields the items of that one page, performs
exactly one fetch, and ends without an error. -/
theorem get_paged_single_final_page (fetch : JObj → JObj) (attr : String) (params : JObj)
    (fuel : Nat) (items : List JVal)
    (hitems : List.lookup attr (fetch params) = some (JVal.arr items))
    (hfinal : pyGetOpt (fetch params) "nextPage" = none) :
    get_paged fetch attr params (fuel + 1) = .ok items 1 := by
  simp only [get_paged, getPagedAux, hitems, hfinal, List.nil_append]

/-- Witness for C6: one server omits the cursor field entirely, the other
binds it to null; both runs yield the single page and fetch once. -/
theorem get_paged_single_final_page_witness :
    get_paged (fun _ => [("cve_ids", .arr [.str "X"])]) "cve_ids" [] 5 = .ok [.str "X"] 1 ∧
    get_paged (fun _ => [("cve_ids", .arr [.str "X"]), ("nextPage", .null)]) "cve_ids" [] 5 =
      .ok [.str "X"] 1 :=
  ⟨get_paged_single_final_page _ "cve_ids" [] 4 _ rfl rfl,
   get_paged_single_final_page _ "cve_ids" [] 4 _ rfl rfl⟩

/-- C10: when the page fetched with the current params lacks the named
array field, the loop raises a KeyError at that page: the run ends in the
keyError outcome rather than treating the page as empty or stopping
cleanly, the items yielded before this page (acc) stay delivered, and the
failing fetch is counted. -/
theorem get_paged_missing_attr_raises (fetch : JObj → JObj) (attr : String) (fuel : Nat)
    (params : JObj) (acc : List JVal) (n : Nat)
    (h : List.lookup attr (fetch params) = none) :
    getPagedAux fetch attr (fuel + 1) params acc n = .keyError acc (n + 1) attr := by
  simp only [getPagedAux, h]

/-- Witness for C10: on a server whose second page lacks the field, the
loop state after page one (one item yielded, one fetch done) steps to a
KeyError, and the full run from the start shows the same: the first page
items stay yielded and the run ends in the error at page two. -/
theorem get_paged_missing_attr_raises_witness :
    getPagedAux demoFetchBroken "cve_ids" 3 [("page", .num 2)] [.str "A1"] 1 =
      .keyError [.str "A1"] 2 "cve_ids" ∧
    get_paged demoFetchBroken "cve_ids" [] 4 = .keyError [.str "A1"] 2 "cve_ids" :=
  ⟨get_paged_missing_attr_raises demoFetchBroken "cve_ids" 2 _ _ 1 rfl, rfl⟩

/-- C9: the generator is lazy.  First: while items of the current page
remain buffered, a next() call yields the next one and performs zero
fetches, so the fetch of page k+1 cannot happen before every item of page
k is consumed.  Second: any next() call that does fetch starts from a
state with no pending items.  Fetches happen only inside next() calls, so
a consumer who stops iterating causes no further fetches. -/
theorem genNext_defers_fetch (fetch : JObj → JObj) (attr : String) (fuel : Nat)
    (i : JVal) (rest : List JVal) (page params : JObj) (st : GPhase) :
    genNext fetch attr fuel (.buffered (i :: rest) page params) =
      (some i, .buffered rest page params, 0) ∧
    (0 < (genNext fetch attr fuel st).2.2 → hasPendingItems st = false) := by
  refine ⟨rfl, ?_⟩
  intro h
  cases st with
  | buffered buf pg ps =>
    cases buf with
    | nil => rfl
    | cons b bs => simp [genNext] at h
  | toFetch ps => rfl
  | done => rfl
  | keyFailed k => rfl
  | typeFailed => rfl

/-- Witness for C9: with one item of page A still buffered, next() yields
it without fetching; and a state that does trigger a fetch (the initial
one) indeed has no pending items. -/
theorem genNext_defers_fetch_witness :
    genNext demoFetch "cve_ids" 5 (.buffered [.str "A2"] pageA []) =
      (some (.str "A2"), .buffered [] pageA [], 0) ∧
    hasPendingItems (GPhase.toFetch []) = false :=
  ⟨(genNext_defers_fetch demoFetch "cve_ids" 5 (.str "A2") [] pageA [] (.toFetch [])).1,
   (genNext_defers_fetch demoFetch "cve_ids" 5 (.str "A2") [] pageA [] (.toFetch [])).2
     (by decide)⟩

/-- Counterexample to C2: a transport-level failure of the request call
itself (timeout, connection refused) is not converted into an
IdrException; the requests exception propagates unwrapped, because the
requests.request line sits outside the try block of http_request. -/
theorem http_request_timeout_counterexample :
    http_request ⟨"user", "org", "key", "https://cveawg.mitre.org/api/", true⟩
        (.failure "ConnectTimeout") = .transportRaise "ConnectTimeout" ∧
    (http_request ⟨"user", "org", "key", "https://cveawg.mitre.org/api/", true⟩
        (.failure "ConnectTimeout")).isIdrError = false :=
  ⟨rfl, rfl⟩

/-- C2 as amended: with raise_exc enabled, exactly the responses with an
error status in 400..599 are surfaced as IdrException; responses with any
other status (including non-2xx informational and redirect statuses) are
returned as-is, and network-level failures of the request call propagate
as the transport library exception, not as IdrException. -/
theorem http_request_error_channels (idr : Idr) (r : HttpResponse) (msg : String)
    (hre : idr.raise_exc = true) :
    (400 ≤ r.statusCode → r.statusCode < 600 →
      (http_request idr (.response r)).isIdrError = true) ∧
    (r.statusCode < 400 ∨ 600 ≤ r.statusCode →
      http_request idr (.response r) = .ok r) ∧
    http_request idr (.failure msg) = .transportRaise msg := by
  refine ⟨?_, ?_, rfl⟩
  · intro h1 h2
    simp [http_request, hre, h1, h2, ReqOutcome.isIdrError]
  · intro h
    have hcond : ¬(400 ≤ r.statusCode ∧ r.statusCode < 600) := by omega
    simp [http_request, hre, hcond]

/-- Witness for C2 as amended at concrete inputs: a 404 becomes an
IdrException, a 200 is returned, a network failure propagates unwrapped. -/
theorem http_request_error_channels_witness :
    (http_request ⟨"u", "o", "k", "b", true⟩
        (.response ⟨404, "NOT FOUND", "theurl", "x", none⟩)).isIdrError = true ∧
    http_request ⟨"u", "o", "k", "b", true⟩ (.response ⟨200, "OK", "theurl", "x", none⟩) =
      .ok ⟨200, "OK", "theurl", "x", none⟩ ∧
    http_request ⟨"u", "o", "k", "b", true⟩ (.failure "refused") = .transportRaise "refused" :=
  ⟨(http_request_error_channels ⟨"u", "o", "k", "b", true⟩ ⟨404, "NOT FOUND", "theurl", "x", none⟩
      "refused" rfl).1 (by decide) (by decide),
   (http_request_error_channels ⟨"u", "o", "k", "b", true⟩ ⟨200, "OK", "theurl", "x", none⟩
      "refused" rfl).2.1 (Or.inl (by decide)),
   (http_request_error_channels ⟨"u", "o", "k", "b", true⟩ ⟨200, "OK", "theurl", "x", none⟩
      "refused" rfl).2.2⟩

/-- C4: with raise_exc enabled (the default), every response with an error
status in 400..599 becomes an IdrException whose message is the original
error description followed by the response body, JSON-decoded when the
body parses and the raw bytes repr otherwise; with raise_exc disabled the
response, error status included, is returned unchanged. -/
theorem http_request_raise_exc_behavior (idr : Idr) (r : HttpResponse) :
    (idr.raise_exc = true → 400 ≤ r.statusCode → r.statusCode < 600 →
      http_request idr (.response r) =
        .idrError (raiseForStatusMsg r ++ "; returned error: " ++
          (match r.jsonBody with
           | some v => pyStr v
           | none => pyBytesRepr r.content))) ∧
    (idr.raise_exc = false → http_request idr (.response r) = .ok r) := by
  constructor
  · intro hre h1 h2
    simp [http_request, hre, h1, h2]
  · intro hre
    simp [http_request, hre]

/-- Witness for C4: a 404 with a JSON error body embeds the decoded dict,
a 500 with a non-JSON body embeds the raw bytes, and with raise_exc
disabled the 500 response comes back untouched. -/
theorem http_request_raise_exc_behavior_witness :
    http_request ⟨"u", "o", "k", "b", true⟩
        (.response ⟨404, "NOT FOUND", "theurl", "nf", some (.obj [("error", .str "bad")])⟩) =
      .idrError ("404 Client Error: NOT FOUND for url: theurl; returned error: \x7b" ++
        pyQuote ++ "error" ++ pyQuote ++ ": " ++ pyQuote ++ "bad" ++ pyQuote ++ "\x7d") ∧
    http_request ⟨"u", "o", "k", "b", true⟩ (.response ⟨500, "ERR", "theurl", "boom", none⟩) =
      .idrError ("500 Server Error: ERR for url: theurl; returned error: b" ++
        pyQuote ++ "boom" ++ pyQuote) ∧
    http_request ⟨"u", "o", "k", "b", false⟩ (.response ⟨500, "ERR", "theurl", "boom", none⟩) =
      .ok ⟨500, "ERR", "theurl", "boom", none⟩ :=
  ⟨(http_request_raise_exc_behavior ⟨"u", "o", "k", "b", true⟩
      ⟨404, "NOT FOUND", "theurl", "nf", some (.obj [("error", .str "bad")])⟩).1
      rfl (by decide) (by decide),
   (http_request_raise_exc_behavior ⟨"u", "o", "k", "b", true⟩
      ⟨500, "ERR", "theurl", "boom", none⟩).1 rfl (by decide) (by decide),
   (http_request_raise_exc_behavior ⟨"u", "o", "k", "b", false⟩
      ⟨500, "ERR", "theurl", "boom", none⟩).2 rfl⟩

/-- Counterexample to C5: an explicit base URL is given (some value, not
None), yet with the empty string and an unresolvable environment name the
construction fails, and with env prod the environment URL, not the given
explicit URL, wins — because the Python expression url or ENVS.get(env)
treats the empty string as absent. -/
theorem idrInit_empty_url_counterexample :
    idrInit "user" "org" "key" "stage" (some "") true =
      Except.error "Missing URL for IDR" ∧
    idrInit "user" "org" "key" "prod" (some "") true =
      Except.ok ⟨"user", "org", "key", "https://cveawg.mitre.org/api/", true⟩ :=
  ⟨rfl, rfl⟩

/-- C5 as amended: construction with an explicit non-empty URL always
succeeds with that URL, regardless of the environment name; when the
explicit URL is absent or empty, construction succeeds with the
environment URL exactly when the environment name resolves in the fixed
table, and fails eagerly with the configuration error otherwise. -/
theorem idrInit_resolution (u o k env : String) (url : Option String) (re : Bool) :
    (∀ s, url = some s → s ≠ "" →
      idrInit u o k env url re = Except.ok ⟨u, o, k, s, re⟩) ∧
    (url = none ∨ url = some "" →
      idrInit u o k env url re =
        match List.lookup env ENVS with
        | some e => Except.ok ⟨u, o, k, e, re⟩
        | none => Except.error "Missing URL for IDR") := by
  constructor
  · intro s hs hne
    subst hs
    simp [idrInit, hne]
  · intro h
    have henvs : ∀ e, List.lookup env ENVS = some e → e ≠ "" := by
      intro e he
      simp only [ENVS, List.lookup] at he
      split at he
      · exact by cases he; decide
      · split at he
        · exact by cases he; decide
        · exact absurd he (by simp)
    rcases h with h | h <;> subst h <;>
      cases he : List.lookup env ENVS with
      | none => simp [idrInit, he]
      | some e => simp [idrInit, he, henvs e he]

/-- Witness for C5 as amended: an explicit URL wins over a resolvable
environment, a resolvable environment fills in for an absent URL, and an
unresolvable environment with no URL fails. -/
theorem idrInit_resolution_witness :
    idrInit "u" "o" "k" "prod" (some "http://x/") true =
      Except.ok ⟨"u", "o", "k", "http://x/", true⟩ ∧
    idrInit "u" "o" "k" "dev" none true =
      Except.ok ⟨"u", "o", "k", "https://cveawg-dev.mitre.org/api/", true⟩ ∧
    idrInit "u" "o" "k" "stage" none true = Except.error "Missing URL for IDR" :=
  ⟨(idrInit_resolution "u" "o" "k" "prod" (some "http://x/") true).1 "http://x/" rfl (by decide),
   (idrInit_resolution "u" "o" "k" "dev" none true).2 (Or.inl rfl),
   (idrInit_resolution "u" "o" "k" "stage" none true).2 (Or.inl rfl)⟩

/-- C7: the reserve request always carries cve_year, amount and
short_name; batch_type appears exactly when count exceeds one, with value
nonsequential when random is set and sequential otherwise (so a count of
one never sends batch_type). -/
theorem reserve_params_shape (count : Int) (random : Bool) (year : Int) (cna : String) :
    List.lookup "batch_type" (reserveParams count random year cna) =
      (if count > 1 then
        some (JVal.str (if random then "nonsequential" else "sequential"))
       else none) ∧
    List.lookup "cve_year" (reserveParams count random year cna) = some (.num year) ∧
    List.lookup "amount" (reserveParams count random year cna) = some (.num count) ∧
    List.lookup "short_name" (reserveParams count random year cna) = some (.str cna) := by
  by_cases h : count > 1
  · simp only [reserveParams, if_pos h]
    exact ⟨rfl, rfl, rfl, rfl⟩
  · simp only [reserveParams, if_neg h]
    exact ⟨rfl, rfl, rfl, rfl⟩

/-- Counterexample to C8: a supplied year of 0 and a supplied state of the
empty string are dropped from the parameters (Python truthiness), so a
filter can be supplied yet absent from the request. -/
theorem list_cves_falsy_filter_counterexample :
    listCvesParams (some 0) none none none = [] ∧
    listCvesParams none (some "") none none = [] :=
  ⟨rfl, rfl⟩

/-- C8 as amended: each optional filter appears in the parameters exactly
when it is supplied with a truthy value — any non-zero year, any non-empty
state (transmitted upper-cased), and any supplied reservation-time bound
(serialized with isoformat under time_reserved.lt / time_reserved.gt;
datetime values are always truthy).  A year of 0 or an empty state string
is dropped. -/
theorem list_cves_filters (year : Option Int) (state : Option String)
    (reserved_lt reserved_gt : Option PyDatetime) :
    List.lookup "cve_id_year" (listCvesParams year state reserved_lt reserved_gt) =
      (match year with
       | some y => if y = 0 then none else some (JVal.num y)
       | none => none) ∧
    List.lookup "state" (listCvesParams year state reserved_lt reserved_gt) =
      (match state with
       | some s => if s = "" then none else some (JVal.str (pyUpper s))
       | none => none) ∧
    List.lookup "time_reserved.lt" (listCvesParams year state reserved_lt reserved_gt) =
      (match reserved_lt with
       | some d => some (JVal.str d.isoformat)
       | none => none) ∧
    List.lookup "time_reserved.gt" (listCvesParams year state reserved_lt reserved_gt) =
      (match reserved_gt with
       | some d => some (JVal.str d.isoformat)
       | none => none) := by
  rcases year with _ | y <;> rcases state with _ | s <;>
    rcases reserved_lt with _ | d1 <;> rcases reserved_gt with _ | d2 <;>
    simp only [listCvesParams] <;>
    try split_ifs
  all_goals exact ⟨rfl, rfl, rfl, rfl⟩

/-- Invariant of the get_paged loop: a run that ends normally has yielded,
after the items it started with, the concatenation of the named arrays of
exactly the pages in the fetch trace, counting one fetch per page; the
trace ends at its first final page. -/
theorem getPagedAux_ok_trace (fetch : JObj → JObj) (attr : String) :
    ∀ (fuel : Nat) (params : JObj) (acc : List JVal) (n : Nat) (items : List JVal) (m : Nat),
      getPagedAux fetch attr fuel params acc n = .ok items m →
      items = acc ++ ((fetchTrace fetch fuel params).map (pageItems attr)).flatten ∧
      m = n + (fetchTrace fetch fuel params).length ∧
      traceShape (fetchTrace fetch fuel params) = true := by
  intro fuel
  induction fuel with
  | zero =>
    intro params acc n items m h
    exact absurd h (by simp [getPagedAux])
  | succ fuel ih =>
    intro params acc n items m h
    simp only [getPagedAux] at h
    split at h
    · exact absurd h (by simp)
    · rename_i items0 hl
      split at h
      · rename_i np hnp
        obtain ⟨h1, h2, h3⟩ := ih (dictSet params "page" np) (acc ++ items0) (n + 1) items m h
        have htr : fetchTrace fetch (fuel + 1) params =
            fetch params :: fetchTrace fetch fuel (dictSet params "page" np) := by
          simp [fetchTrace, hnp]
        rw [htr]
        refine ⟨?_, ?_, ?_⟩
        · simp [pageItems, hl, h1, List.append_assoc]
        · simp [List.length_cons, h2]; omega
        · cases htl : fetchTrace fetch fuel (dictSet params "page" np) with
          | nil => rw [htl] at h3; simp [traceShape] at h3
          | cons p rest =>
            rw [htl] at h3
            simp [traceShape, isFinalPage, hnp, h3]
      · rename_i hnp
        have hi : items = acc ++ items0 ∧ m = n + 1 := by
          cases h; exact ⟨rfl, rfl⟩
        have htr : fetchTrace fetch (fuel + 1) params = [fetch params] := by
          simp [fetchTrace, hnp]
        rw [htr]
        refine ⟨?_, ?_, ?_⟩
        · simp [pageItems, hl, hi.1]
        · simp [hi.2]
        · simp [traceShape, isFinalPage, hnp]
    · exact absurd h (by simp)

/-- C1: a pagination run that ends normally yields exactly the
concatenation, in server order, of the named array field of each fetched
page; it performs one fetch per page of the trace, and the trace stops at
the first page whose nextPage cursor is absent or null (every earlier page
has a non-null cursor, by traceShape). -/
theorem get_paged_concatenates_pages (fetch : JObj → JObj) (attr : String) (params : JObj)
    (fuel : Nat) (items : List JVal) (m : Nat)
    (h : get_paged fetch attr params fuel = .ok items m) :
    items = ((fetchTrace fetch fuel params).map (pageItems attr)).flatten ∧
    m = (fetchTrace fetch fuel params).length ∧
    traceShape (fetchTrace fetch fuel params) = true := by
  obtain ⟨h1, h2, h3⟩ := getPagedAux_ok_trace fetch attr fuel params [] 0 items m h
  exact ⟨by simpa using h1, by simpa using h2, h3⟩

/-- Witness for C1: on the three-page demo server with nextPage cursors
2, 3 and null, the run yields the five items of the three pages in order
and performs exactly three fetches, and the invariant ties that output to
the three-page trace. -/
theorem get_paged_concatenates_pages_witness :
    get_paged demoFetch "cve_ids" [] 10 =
      .ok [.str "A1", .str "A2", .str "B1", .str "C1", .str "C2"] 3 ∧
    fetchTrace demoFetch 10 [] = [pageA, pageB, pageC] ∧
    ([JVal.str "A1", .str "A2", .str "B1", .str "C1", .str "C2"] =
      ((fetchTrace demoFetch 10 []).map (pageItems "cve_ids")).flatten ∧
    3 = (fetchTrace demoFetch 10 []).length ∧
    traceShape (fetchTrace demoFetch 10 []) = true) :=
  ⟨rfl, rfl, get_paged_concatenates_pages demoFetch "cve_ids" [] 10 _ _ rfl⟩

/-- The demo client configured against the production base URL. -/
def demoIdr : Idr := ⟨"user", "org", "key", "https://cveawg.mitre.org/api/", true⟩

/-- Counterexample to C3: the relative path value //evil.example/x (a
network-path reference, no scheme of its own) makes urljoin replace the
configured host, so the request would target evil.example instead of
cveawg.mitre.org. -/
theorem http_request_url_escape_counterexample :
    httpRequestUrl demoIdr "//evil.example/x" = "https://evil.example/x" ∧
    hostOf (httpRequestUrl demoIdr "//evil.example/x") = "evil.example" ∧
    hostOf demoIdr.url = "cveawg.mitre.org" ∧
    hostOf (httpRequestUrl demoIdr "//evil.example/x") ≠ hostOf demoIdr.url :=
  ⟨rfl, rfl, rfl, by decide⟩

/-- Well-formedness of a configured base URL, stated as the decidable
conditions the host-preservation proof consumes: the parse of the base has
a valid scheme listed in both the uses_relative and uses_netloc tables,
made of plain characters (no colon, no unsafe byte, no control or space),
and a non-empty netloc of ordinary host characters.  Both environment
URLs of the client satisfy it. -/
def baseOk (base : String) : Bool :=
  let b := urlsplitD base ""
  schemeValid b.scheme.data &&
  usesRelative.contains b.scheme &&
  usesNetloc.contains b.scheme &&
  b.scheme.data.all (fun c =>
    !(c = ':') && !(c = Char.ofNat 9 || c = Char.ofNat 13 || c = Char.ofNat 10) &&
    !isC0OrSpace c) &&
  !(b.netloc = "") &&
  b.netloc.data.all (fun c =>
    netlocChar c && !(c = Char.ofNat 9 || c = Char.ofNat 13 || c = Char.ofNat 10))

/-- Splitting at the first colon of a colon-free prefix followed by a
colon finds exactly that prefix. -/
theorem splitAtColon_prefix (a b : List Char) (h : a.all (fun c => !(c = ':')) = true) :
    splitAtColon (a ++ ':' :: b) = some (a, b) := by
  induction a with
  | nil => simp [splitAtColon]
  | cons c rest ih =>
    simp only [List.all_cons, Bool.and_eq_true, Bool.not_eq_true'] at h
    have hc : ¬(c = ':') := by simpa using h.1
    simp [splitAtColon, hc, ih (by simpa using h.2)]

/-- takeWhile over an append whose first part satisfies the predicate
throughout keeps that part and continues into the second. -/
theorem takeWhile_append_all (p : Char → Bool) (a b : List Char)
    (h : a.all p = true) :
    (a ++ b).takeWhile p = a ++ b.takeWhile p := by
  induction a with
  | nil => simp
  | cons c rest ih =>
    simp only [List.all_cons, Bool.and_eq_true] at h
    simp [List.takeWhile, h.1, ih h.2]

/-- Unsafe-byte removal distributes over append. -/
theorem removeUnsafe_append (a b : List Char) :
    removeUnsafe (a ++ b) = removeUnsafe a ++ removeUnsafe b := by
  simp [removeUnsafe, List.filter_append]

/-- Unsafe-byte removal leaves a list without unsafe bytes unchanged. -/
theorem removeUnsafe_all_safe (a : List Char)
    (h : a.all (fun c => !(c = Char.ofNat 9 || c = Char.ofNat 13 || c = Char.ofNat 10)) = true) :
    removeUnsafe a = a := by
  rw [removeUnsafe, List.filter_eq_self]
  intro c hc
  exact (List.all_eq_true.mp h) c hc

/-- The control-and-space strip stops at once on a list whose head is not
a control character or space. -/
theorem lstripC0_cons_of_not (c : Char) (l : List Char) (h : isC0OrSpace c = false) :
    lstripC0 (c :: l) = c :: l := by
  simp [lstripC0, List.dropWhile_cons, h]

/-- Parsing a URL string of the canonical shape scheme://host/rest gives
back exactly the host, for a valid plain scheme, a host of ordinary
characters, and a tail that is empty or begins with a slash, question
mark or hash. -/
theorem hostOf_canonical (scheme H : String) (T : List Char)
    (hs1 : schemeValid scheme.data = true)
    (hs2 : scheme.data.all (fun c =>
      !(c = ':') && !(c = Char.ofNat 9 || c = Char.ofNat 13 || c = Char.ofNat 10) &&
      !isC0OrSpace c) = true)
    (hH : H.data.all (fun c =>
      netlocChar c && !(c = Char.ofNat 9 || c = Char.ofNat 13 || c = Char.ofNat 10)) = true)
    (hT : T = [] ∨ ∃ t, T = '/' :: t ∨ T = '?' :: t ∨ T = '#' :: t) :
    hostOf (String.mk (scheme.data ++ ':' :: '/' :: '/' :: (H.data ++ T))) = H := by
  have hs2' := List.all_eq_true.mp hs2
  have hH' := List.all_eq_true.mp hH
  have hcolon : scheme.data.all (fun c => !(c = ':')) = true :=
    List.all_eq_true.mpr fun c hc => by
      have := hs2' c hc; simp only [Bool.and_eq_true] at this; exact this.1.1
  have hsafeS : scheme.data.all
      (fun c => !(c = Char.ofNat 9 || c = Char.ofNat 13 || c = Char.ofNat 10)) = true :=
    List.all_eq_true.mpr fun c hc => by
      have := hs2' c hc; simp only [Bool.and_eq_true] at this; exact this.1.2
  have hsafeH : H.data.all
      (fun c => !(c = Char.ofNat 9 || c = Char.ofNat 13 || c = Char.ofNat 10)) = true :=
    List.all_eq_true.mpr fun c hc => by
      have := hH' c hc; simp only [Bool.and_eq_true] at this; exact this.2
  have hnlH : H.data.all netlocChar = true :=
    List.all_eq_true.mpr fun c hc => by
      have := hH' c hc; simp only [Bool.and_eq_true] at this; exact this.1
  -- scheme is non-empty
  obtain ⟨c0, cs, hsd⟩ : ∃ c0 cs, scheme.data = c0 :: cs := by
    cases hh : scheme.data with
    | nil => rw [hh] at hs1; exact absurd hs1 (by decide)
    | cons a b => exact ⟨a, b, rfl⟩
  have hc0 : isC0OrSpace c0 = false := by
    have := hs2' c0 (by rw [hsd]; exact List.mem_cons_self c0 cs)
    simp only [Bool.and_eq_true, Bool.not_eq_true'] at this
    exact this.2
  -- the parsed pieces
  have hrm : removeUnsafe (scheme.data ++ ':' :: '/' :: '/' :: (H.data ++ T)) =
      scheme.data ++ ':' :: '/' :: '/' :: (H.data ++ removeUnsafe T) := by
    have e1 : scheme.data ++ ':' :: '/' :: '/' :: (H.data ++ T) =
        scheme.data ++ ((([':', '/', '/'] ++ H.data) ++ T)) := by simp
    rw [e1, removeUnsafe_append, removeUnsafe_append, removeUnsafe_append,
      removeUnsafe_all_safe scheme.data hsafeS, removeUnsafe_all_safe H.data hsafeH,
      removeUnsafe_all_safe [':', '/', '/'] (by decide)]
    simp
  have hlstrip : lstripC0 (scheme.data ++ ':' :: '/' :: '/' :: (H.data ++ T)) =
      scheme.data ++ ':' :: '/' :: '/' :: (H.data ++ T) := by
    rw [hsd]
    exact lstripC0_cons_of_not c0 _ hc0
  have hsplit : splitSchemeD (scheme.data ++ ':' :: '/' :: '/' :: (H.data ++ removeUnsafe T)) [] =
      (scheme.data.map Char.toLower, '/' :: '/' :: (H.data ++ removeUnsafe T)) := by
    rw [splitSchemeD, splitAtColon_prefix _ _ hcolon]
    simp [hs1]
  have htake : List.takeWhile netlocChar (H.data ++ removeUnsafe T) = H.data := by
    rw [takeWhile_append_all netlocChar _ _ hnlH]
    have : List.takeWhile netlocChar (removeUnsafe T) = [] := by
      rcases hT with h | ⟨t, h | h | h⟩ <;> subst h <;>
        simp [removeUnsafe, List.filter, List.takeWhile, netlocChar]
    rw [this, List.append_nil]
  show (urlsplitD (String.mk (scheme.data ++ ':' :: '/' :: '/' :: (H.data ++ T))) "").netloc = H
  simp only [urlsplitD]
  rw [hlstrip, hrm]
  have hd : removeUnsafe (stripC0 ([] : List Char)) = [] := rfl
  rw [hd, hsplit]
  simp only [splitNetlocD]
  rw [htake]

/-- The character data of an append is the append of the data. -/
theorem strData_append (s t : String) : (s ++ t).data = s.data ++ t.data := rfl

/-- Reassembling components with urlunsplit around a fixed non-empty
netloc always yields a URL whose parsed host is that netloc, whatever the
path, query and fragment are. -/
theorem hostOf_unsplit (scheme H path q f : String)
    (hs1 : schemeValid scheme.data = true)
    (hs2 : scheme.data.all (fun c =>
      !(c = ':') && !(c = Char.ofNat 9 || c = Char.ofNat 13 || c = Char.ofNat 10) &&
      !isC0OrSpace c) = true)
    (hH0 : H ≠ "")
    (hH : H.data.all (fun c =>
      netlocChar c && !(c = Char.ofNat 9 || c = Char.ofNat 13 || c = Char.ofNat 10)) = true) :
    hostOf (urlunsplit ⟨scheme, H, path, q, f⟩) = H := by
  have hschemeNe : scheme ≠ "" := by
    intro he; rw [he] at hs1; exact absurd hs1 (by decide)
  have key : ∃ T : List Char,
      urlunsplit ⟨scheme, H, path, q, f⟩ =
        String.mk (scheme.data ++ ':' :: '/' :: '/' :: (H.data ++ T)) ∧
      (T = [] ∨ ∃ t, T = '/' :: t ∨ T = '?' :: t ∨ T = '#' :: t) := by
    by_cases hp : path = ""
    · by_cases hq : q = ""
      · by_cases hf : f = ""
        · refine ⟨[], ?_, Or.inl rfl⟩
          subst hp hq hf
          apply String.ext
          simp [urlunsplit, hH0, hschemeNe, strData_append, apply_ite String.data,
            List.append_assoc]
        · refine ⟨'#' :: f.data, ?_, Or.inr ⟨f.data, Or.inr (Or.inr rfl)⟩⟩
          subst hp hq
          apply String.ext
          simp [urlunsplit, hH0, hschemeNe, hf, strData_append, apply_ite String.data,
            List.append_assoc]
      · by_cases hf : f = ""
        · refine ⟨'?' :: q.data, ?_, Or.inr ⟨q.data, Or.inr (Or.inl rfl)⟩⟩
          subst hp hf
          apply String.ext
          simp [urlunsplit, hH0, hschemeNe, hq, strData_append, apply_ite String.data,
            List.append_assoc]
        · refine ⟨'?' :: (q.data ++ '#' :: f.data), ?_,
            Or.inr ⟨q.data ++ '#' :: f.data, Or.inr (Or.inl rfl)⟩⟩
          subst hp
          apply String.ext
          simp [urlunsplit, hH0, hschemeNe, hq, hf, strData_append, apply_ite String.data,
            List.append_assoc]
    · have hadj : ∃ t0 : List Char,
          (if path ≠ "" ∧ startsSlash path = false then '/' :: path.data else path.data) =
            '/' :: t0 := by
        by_cases hsl : startsSlash path = true
        · obtain ⟨t0, ht0⟩ : ∃ t0, path.data = '/' :: t0 := by
            rcases hd : path.data with _ | ⟨c, t⟩
            · exfalso
              exact hp (String.ext (by simp [hd]))
            · have hc : c = '/' := by
                have hb := hsl
                rw [startsSlash, hd] at hb
                simpa using hb
              subst hc
              exact ⟨t, rfl⟩
          refine ⟨t0, ?_⟩
          rw [if_neg (by simp [hsl])]
          exact ht0
        · have hsl2 : startsSlash path = false := by
            cases hb : startsSlash path
            · rfl
            · exact absurd hb hsl
          exact ⟨path.data, by rw [if_pos ⟨hp, hsl2⟩]⟩
      obtain ⟨t0, ht0⟩ := hadj
      by_cases hq : q = ""
      · by_cases hf : f = ""
        · refine ⟨'/' :: t0, ?_, Or.inr ⟨t0, Or.inl rfl⟩⟩
          subst hq hf
          apply String.ext
          simp only [urlunsplit, strData_append, apply_ite String.data]
          simp [hH0, hschemeNe, ht0, strData_append, apply_ite String.data,
            List.append_assoc]
        · refine ⟨'/' :: (t0 ++ '#' :: f.data), ?_,
            Or.inr ⟨t0 ++ '#' :: f.data, Or.inl rfl⟩⟩
          subst hq
          apply String.ext
          simp [urlunsplit, hH0, hschemeNe, hf, ht0, strData_append, apply_ite String.data,
            List.append_assoc]
      · by_cases hf : f = ""
        · refine ⟨'/' :: (t0 ++ '?' :: q.data), ?_,
            Or.inr ⟨t0 ++ '?' :: q.data, Or.inl rfl⟩⟩
          subst hf
          apply String.ext
          simp [urlunsplit, hH0, hschemeNe, hq, ht0, strData_append, apply_ite String.data,
            List.append_assoc]
        · refine ⟨'/' :: (t0 ++ '?' :: q.data ++ '#' :: f.data), ?_,
            Or.inr ⟨t0 ++ '?' :: q.data ++ '#' :: f.data, Or.inl rfl⟩⟩
          apply String.ext
          simp [urlunsplit, hH0, hschemeNe, hq, hf, ht0, strData_append, apply_ite String.data,
            List.append_assoc]
  obtain ⟨T, hEq, hT⟩ := key
  rw [hEq]
  exact hostOf_canonical scheme H T hs1 hs2 hH hT

/-- C3 as amended: for a well-formed configured base URL, every path
argument that carries neither a scheme of its own differing from the base
(it parses, with the base scheme as default, to the base scheme) nor an
authority component (its parsed netloc is empty, ruling out leading //
and absolute URLs) produces a request URL on the configured host.  The
counterexample shows the complement: a network-path or absolute-URL path
value escapes the host. -/
theorem http_request_url_keeps_host (idr : Idr) (p : String)
    (hbase : baseOk idr.url = true)
    (hscheme : (urlsplitD p (urlsplitD idr.url "").scheme).scheme =
      (urlsplitD idr.url "").scheme)
    (hnetloc : (urlsplitD p (urlsplitD idr.url "").scheme).netloc = "") :
    hostOf (httpRequestUrl idr p) = hostOf idr.url := by
  simp only [baseOk, Bool.and_eq_true, Bool.not_eq_true', decide_eq_false_iff_not] at hbase
  obtain ⟨⟨⟨⟨⟨h1, h2⟩, h3⟩, h4⟩, h5⟩, h6⟩ := hbase
  have hbne : idr.url ≠ "" := by
    intro he
    rw [he] at h5
    exact h5 rfl
  show hostOf (httpRequestUrl idr p) = (urlsplitD idr.url "").netloc
  by_cases hp : p = ""
  · subst hp
    simp only [httpRequestUrl, urljoin, if_neg hbne, if_pos rfl]
    rfl
  · simp only [httpRequestUrl, urljoin, if_neg hbne, if_neg hp]
    rw [if_neg (by
      rintro (h | h)
      · exact h hscheme
      · rw [hscheme] at h
        exact h h2)]
    simp only [urljoinMerge]
    rw [if_pos (by rw [hscheme]; exact h3)]
    rw [if_neg (by simp [hnetloc])]
    simp only [urljoinPath]
    by_cases hup : (urlsplitD p (urlsplitD idr.url "").scheme).path = ""
    · rw [if_pos hup, hscheme]
      exact hostOf_unsplit _ _ _ _ _ h1 h4 h5 h6
    · rw [if_neg hup, hscheme]
      exact hostOf_unsplit _ _ _ _ _ h1 h4 h5 h6

/-- Witness for C3 as amended: the production base URL is well-formed and
the ordinary path cve-id/CVE-2024-0001 keeps the request on
cveawg.mitre.org. -/
theorem http_request_url_keeps_host_witness :
    baseOk demoIdr.url = true ∧
    (urlsplitD "cve-id/CVE-2024-0001" (urlsplitD demoIdr.url "").scheme).scheme =
      (urlsplitD demoIdr.url "").scheme ∧
    (urlsplitD "cve-id/CVE-2024-0001" (urlsplitD demoIdr.url "").scheme).netloc = "" ∧
    hostOf (httpRequestUrl demoIdr "cve-id/CVE-2024-0001") = hostOf demoIdr.url :=
  ⟨by decide, rfl, rfl,
   http_request_url_keeps_host demoIdr "cve-id/CVE-2024-0001" (by decide) rfl rfl⟩
